import Mathlib

/-!
Verification of the structural PDF renderer of the Pdf repository.

The development shallowly embeds the refactored renderer variant (the file
defining `PDF_CONSTANTS`, `parseColor`, `processTextInsert`,
`determineLineType`, `calculateScriptFormatting`, `getFontSize`,
`parseQuillDelta`, `generateAdvancedTextPdf` and `generateAdvancedPdf`).
JavaScript strings are Lean `String`s, JavaScript numbers are `ℚ` (the
renderer only combines its millimetre constants with `+`, `-` and `*`, so the
embedding is exact on the inputs considered), `NaN` results of `parseInt` are
`Option.none`, and absent object properties are `Option.none`.  The external
jsPDF primitive library (text wrapping, page size) is modelled as parameters,
as is the asynchronous image loader.
-/

namespace Pdf

/-- Attribute map carried by one Quill delta operation.  Absent properties are
`none`/`false`, mirroring JavaScript `undefined` being falsy. -/
structure Attrs where
  header : Option Nat := none
  blockquote : Bool := false
  codeBlock : Bool := false
  list : Option String := none
  bold : Bool := false
  italic : Bool := false
  underline : Bool := false
  strike : Bool := false
  strikethrough : Bool := false
  size : Option String := none
  font : Option String := none
  color : Option String := none
  background : Option String := none
  script : Option String := none
  link : Option String := none
  align : Option String := none
deriving DecidableEq, Repr

/-- Kind tag of a parsed segment: plain text, an image embed, or a link embed
(the source distinguishes them by the presence of a `type` property). -/
inductive SegKind
  | text
  | image
  | link
deriving DecidableEq, Repr

/-- One segment of a parsed line: `{text, attributes}` for text runs,
`{type:'image', src, attributes}` and `{type:'link', url, attributes}` for
embeds. -/
structure Segment where
  kind : SegKind := SegKind.text
  text : String := ""
  src : String := ""
  url : String := ""
  attributes : Attrs := {}
deriving DecidableEq, Repr

/-- One content block (`currentLine` in the source): created as
`{ type: 'paragraph', segments: [], attributes: {} }`. -/
structure Line where
  type : String := "paragraph"
  level : Option Nat := none
  ordered : Bool := false
  segments : List Segment := []
  attributes : Attrs := {}
deriving DecidableEq, Repr

/-- Truthiness of a JavaScript number-or-undefined property (`attrs.header`):
`undefined` and `0` are falsy. -/
def headerTruthy (o : Option Nat) : Bool :=
  match o with
  | none => false
  | some n => n != 0

/-- Truthiness of a JavaScript string-or-undefined property (`attrs.list`,
`insertObj.image`, ...): `undefined` and the empty string are falsy. -/
def strTruthy (o : Option String) : Bool :=
  match o with
  | none => false
  | some s => s != ""

/-- Embeds `determineLineType` (source): sets the completed line's `type` by
the if/else chain header, blockquote, code-block, list, and always stores the
attribute map on the line. -/
def determineLineType (attrs : Attrs) (currentLine : Line) : Line :=
  let typed :=
    if headerTruthy attrs.header then
      { currentLine with type := "header", level := attrs.header }
    else if attrs.blockquote then
      { currentLine with type := "blockquote" }
    else if attrs.codeBlock then
      { currentLine with type := "code" }
    else if strTruthy attrs.list then
      { currentLine with type := "list", ordered := attrs.list == some "ordered" }
    else currentLine
  { typed with attributes := attrs }

/-- Appends a `{text, attributes}` segment to a line
(`currentLine.segments.push({ text, attributes: attrs })`). -/
def pushTextSeg (attrs : Attrs) (t : String) (cur : Line) : Line :=
  { cur with segments := cur.segments ++ [{ kind := SegKind.text, text := t, attributes := attrs }] }

/-- Splits a character list at every newline, modelling JavaScript
`text.split('\n')`: `n` newline characters yield `n + 1` parts. -/
def splitNl : List Char → List (List Char)
  | [] => [[]]
  | c :: cs =>
    let r := splitNl cs
    if c = '\n' then [] :: r else (c :: r.headD []) :: r.tail

/-- String version of `splitNl`, the model of `text.split('\n')`. -/
def jsSplitString (s : String) : List String :=
  (splitNl s.toList).map (fun l => String.mk l)

/-- Embeds the `for (let i = 0; i < parts.length - 1; i++)` loop of
`processTextInsert` together with the trailing
`currentLine.segments.push({ text: lastPart || '' })`: `cur` holds the line
accumulated so far; `rest` is `parts` without its first element.  Each loop
iteration types and pushes the accumulated line, starts a fresh
paragraph-typed accumulator, and seeds it with the next part; the final part
is pushed as a segment of the fresh accumulator even when it is empty. -/
def processPartsLoop (attrs : Attrs) : Line → List Line → List String → Line × List Line
  | cur, content, [] => (cur, content)
  | cur, content, [last] =>
      (pushTextSeg attrs last {}, content ++ [determineLineType attrs cur])
  | cur, content, p :: rest =>
      processPartsLoop attrs (pushTextSeg attrs p {}) (content ++ [determineLineType attrs cur]) rest

/-- Embeds `processTextInsert` (source): text without a newline is appended to
the current line; otherwise the text is split on newlines, the part before the
first newline is appended (even if empty), each newline boundary completes a
block, and the last part seeds the new accumulator. -/
def processTextInsert (text : String) (attrs : Attrs) (currentLine : Line)
    (content : List Line) : Line × List Line :=
  if '\n' ∈ text.toList then
    match jsSplitString text with
    | [] => (currentLine, content)
    | p0 :: rest => processPartsLoop attrs (pushTextSeg attrs p0 currentLine) content rest
  else
    (pushTextSeg attrs text currentLine, content)

/-- Object payload of an embed insert (`op.insert` when it is an object). -/
structure EmbedObj where
  image : Option String := none
  link : Option String := none
deriving DecidableEq, Repr

/-- Embeds `processObjectInsert` (source): an image embed becomes an
image-kind segment, a link embed a link-kind segment, anything else the
placeholder text `[Embed]`.  The line's `type` is never touched. -/
def processObjectInsert (insertObj : EmbedObj) (attrs : Attrs) (currentLine : Line) : Line :=
  if strTruthy insertObj.image then
    { currentLine with segments := currentLine.segments ++
        [{ kind := SegKind.image, src := insertObj.image.getD "", attributes := attrs }] }
  else if strTruthy insertObj.link then
    { currentLine with segments := currentLine.segments ++
        [{ kind := SegKind.link, url := insertObj.link.getD "", attributes := attrs }] }
  else
    pushTextSeg attrs "[Embed]" currentLine

/-- One delta operation: a string insert or an object (embed) insert, each
with its attribute map (`op.attributes || {}`). -/
inductive Op
  | insertText (text : String) (attrs : Attrs)
  | insertEmbed (obj : EmbedObj) (attrs : Attrs)
deriving DecidableEq, Repr

/-- The `for (const op of delta.ops)` loop of `parseQuillDelta`. -/
def parseLoop : List Op → Line → List Line → Line × List Line
  | [], cur, content => (cur, content)
  | Op.insertText t a :: ops, cur, content =>
      parseLoop ops (processTextInsert t a cur content).1 (processTextInsert t a cur content).2
  | Op.insertEmbed obj a :: ops, cur, content =>
      parseLoop ops (processObjectInsert obj a cur) content

/-- Embeds `parseQuillDelta` (source): runs the operation loop starting from a
fresh paragraph accumulator and finally pushes the accumulator when
`currentLine.segments.length > 0`. -/
def parseQuillDelta (ops : List Op) : List Line :=
  if 0 < ((parseLoop ops {} []).1).segments.length then
    (parseLoop ops {} []).2 ++ [(parseLoop ops {} []).1]
  else
    (parseLoop ops {} []).2

/-- Number of newline characters in a character list. -/
def countNl : List Char → Nat
  | [] => 0
  | c :: cs => (if c = '\n' then 1 else 0) + countNl cs

/-- Number of newline characters inserted by one operation. -/
def opNewlines : Op → Nat
  | Op.insertText t _ => countNl t.toList
  | Op.insertEmbed _ _ => 0

/-- Total number of newline characters inserted by a delta. -/
def opsNewlines (ops : List Op) : Nat :=
  (ops.map opNewlines).sum

/-! ## Color parsing (`parseColor`, background resolution) -/

/-- Value of one hexadecimal digit, both cases, as `parseInt(_, 16)` accepts. -/
def hexDigitVal (c : Char) : Option Nat :=
  if '0' ≤ c ∧ c ≤ '9' then some (c.toNat - '0'.toNat)
  else if 'a' ≤ c ∧ c ≤ 'f' then some (c.toNat - 'a'.toNat + 10)
  else if 'A' ≤ c ∧ c ≤ 'F' then some (c.toNat - 'A'.toNat + 10)
  else none

/-- Longest prefix of hexadecimal digits, as digit values. -/
def takeHexDigits : List Char → List Nat
  | [] => []
  | c :: cs =>
    match hexDigitVal c with
    | some v => v :: takeHexDigits cs
    | none => []

/-- Embeds JavaScript `parseInt(s, 16)`: skip leading whitespace, read an
optional sign and an optional `0x`/`0X` prefix, then the longest run of hex
digits; no digit at all gives `NaN`, modelled as `none`.  `parseInt` never
throws, so the `catch` branch of `parseColor` is dead. -/
def jsParseIntHex (s : String) : Option Int :=
  let cs := s.toList.dropWhile (fun c => c = ' ' ∨ c = '\t' ∨ c = '\n' ∨ c = '\r')
  let sign : Int := if cs.headD ' ' = '-' then -1 else 1
  let cs := if cs.headD ' ' = '-' ∨ cs.headD ' ' = '+' then cs.tail else cs
  let cs := match cs with
    | '0' :: 'x' :: rest => rest
    | '0' :: 'X' :: rest => rest
    | rest => rest
  let ds := takeHexDigits cs
  if ds = [] then none
  else some (sign * ds.foldl (fun acc d => acc * 16 + (d : Int)) 0)

/-- An RGB triple as the renderer produces it; a `none` component is a `NaN`
that `parseInt` returned for a non-hex slice. -/
structure ColorV where
  r : Option Int
  g : Option Int
  b : Option Int
deriving DecidableEq, Repr

/-- The shared constant `PDF_CONSTANTS.DEFAULT_COLORS.BLACK`. -/
def blackV : ColorV := ⟨some 0, some 0, some 0⟩

/-- Embeds JavaScript `s.slice(a, b)` for non-negative indices (clamping). -/
def jsSlice (s : String) (a b : Nat) : String :=
  String.mk ((s.toList.drop a).take (b - a))

/-- Embeds `colorStr.startsWith('#')`. -/
def jsStartsWithHash (s : String) : Bool :=
  s.toList.head? == some '#'

/-- Result of `parseColor`, keeping track of object identity: the function
either returns the shared `PDF_CONSTANTS.DEFAULT_COLORS.BLACK` object or a
freshly allocated color object.  JavaScript `!==` on objects is reference
inequality, so a fresh object is never `===` to the shared constant. -/
inductive ColorRef
  | blackDefault
  | newObject (c : ColorV)
deriving DecidableEq, Repr

/-- The color value a `ColorRef` holds. -/
def colorRefVal : ColorRef → ColorV
  | ColorRef.blackDefault => blackV
  | ColorRef.newObject c => c

/-- Embeds `parseColor` (source): `undefined`, the empty string (falsy) and
strings not starting with `#` return the shared BLACK constant; any other
string is sliced into three character pairs fed to `parseInt(_, 16)`. -/
def parseColor (colorStr : Option String) : ColorRef :=
  match colorStr with
  | none => ColorRef.blackDefault
  | some s =>
    if s = "" ∨ ¬ jsStartsWithHash s then ColorRef.blackDefault
    else ColorRef.newObject
      ⟨jsParseIntHex (jsSlice s 1 3), jsParseIntHex (jsSlice s 3 5), jsParseIntHex (jsSlice s 5 7)⟩

/-- Embeds the background-color resolution of `generateAdvancedTextPdf`
(refactored variant): `if (attrs.background) { const bgColor =
parseColor(attrs.background); if (bgColor !== PDF_CONSTANTS.DEFAULT_COLORS.BLACK)
backgroundColor = bgColor; }`.  The `!==` guard compares object references, so
it only rejects the shared constant itself, never a freshly parsed color. -/
def resolveBackground (background : Option String) : Option ColorV :=
  match background with
  | none => none
  | some s =>
    if s = "" then none
    else
      match parseColor (some s) with
      | ColorRef.blackDefault => none
      | ColorRef.newObject c => some c

/-- Embeds the background-color resolution of the sibling
`src/js/logic/html-to-pdf.ts` variant, which compares the attribute string
against `'#000000'` before parsing (`if (bgColor && bgColor !== '#000000')`). -/
def resolveBackgroundStrCmp (background : Option String) : Option ColorV :=
  match background with
  | none => none
  | some s =>
    if s = "" then none
    else
      let bgColor := if jsStartsWithHash s then some s else none
      match bgColor with
      | none => none
      | some hx =>
        if hx ≠ "#000000" then
          some ⟨jsParseIntHex (jsSlice hx 1 3), jsParseIntHex (jsSlice hx 3 5),
                jsParseIntHex (jsSlice hx 5 7)⟩
        else none

/-- A color attribute value the claim calls "not a valid #RRGGBB hex
representation" because it is absent, empty, or does not start with `#`. -/
def nonHashColor (c : Option String) : Bool :=
  match c with
  | none => true
  | some s => s == "" || !(jsStartsWithHash s)

/-! ## Formatting resolution (`getFontSize`, `calculateScriptFormatting`) -/

/-- Embeds `getFontSize` (source): base size by block type, then the `size`
attribute chain. -/
def getFontSize (blockType : String) (attrs : Attrs) : Int :=
  let baseSize : Int := if blockType = "code" then 10 else if blockType = "blockquote" then 11 else 12
  if attrs.size = some "small" then max 8 (baseSize - 2)
  else if attrs.size = some "large" then baseSize + 4
  else if attrs.size = some "huge" then baseSize + 8
  else baseSize

/-- Block type of a completed line as the specification words it: the fixed
priority order header > blockquote > code > list > paragraph. -/
def specBlockType (attrs : Attrs) : String :=
  if headerTruthy attrs.header then "header"
  else if attrs.blockquote then "blockquote"
  else if attrs.codeBlock then "code"
  else if strTruthy attrs.list then "list"
  else "paragraph"

/-- Base point size as the specification words it: 10pt for code blocks, 11pt
for blockquotes, 12pt otherwise. -/
def specBaseSize (blockType : String) : Int :=
  if blockType = "code" then 10 else if blockType = "blockquote" then 11 else 12

/-- Resolved font size as the specification words it: `small` gives
`max(8, base-2)`, `large` gives `base+4`, `huge` gives `base+8`, anything
else the base size. -/
def specFontSize (blockType : String) (size : Option String) : Int :=
  if size = some "small" then max 8 (specBaseSize blockType - 2)
  else if size = some "large" then specBaseSize blockType + 4
  else if size = some "huge" then specBaseSize blockType + 8
  else specBaseSize blockType

/-- Constant `PDF_CONSTANTS.SUPERSCRIPT_SCALE` (the doubles of the source are
embedded as the rationals they denote). -/
def superscriptScale : ℚ := 7 / 10

/-- Constant `PDF_CONSTANTS.SUPERSCRIPT_OFFSET`. -/
def superscriptOffset : ℚ := 2 / 5

/-- Constant `PDF_CONSTANTS.SUBSCRIPT_SCALE`. -/
def subscriptScale : ℚ := 7 / 10

/-- Constant `PDF_CONSTANTS.SUBSCRIPT_OFFSET`. -/
def subscriptOffset : ℚ := 1 / 4

/-- Embeds `calculateScriptFormatting` (source): returns the adjusted font
size and the vertical offset added to the baseline (`pdf.text(line, renderX,
currentY + yOffset)`); a negative offset draws higher on the page. -/
def calculateScriptFormatting (fontSize : ℚ) (script : Option String) : ℚ × ℚ :=
  if script = some "super" then
    (fontSize * superscriptScale, -(fontSize * superscriptOffset))
  else if script = some "sub" then
    (fontSize * subscriptScale, fontSize * subscriptOffset)
  else
    (fontSize, 0)

/-- Scale factor on the font size as the specification words it. -/
def specScriptScale (script : Option String) : ℚ :=
  if script = some "super" ∨ script = some "sub" then 7 / 10 else 1

/-- Baseline shift as the specification words it: up (negative) by 0.4 times
the unscaled size for superscript, down by 0.25 times for subscript. -/
def specScriptShift (script : Option String) (unscaled : ℚ) : ℚ :=
  if script = some "super" then -(2 / 5 * unscaled)
  else if script = some "sub" then 1 / 4 * unscaled
  else 0

/-! ## Block layout driver (`generateAdvancedTextPdf` loop)

The jsPDF primitive library is external: the page dimensions
(`pdf.internal.pageSize`) and the greedy text wrapper
(`pdf.splitTextToSize`, returning the number of physical lines a string
wraps to at a given width) are parameters of the model.  Image embedding
goes through the asynchronous external image loader, so the driver model
covers exports whose blocks carry no image segments; the standalone
`'image'` block case is unreachable from parsed input anyway (see the
image-block invariant below). -/

/-- Text accumulated as `lineText` by the paragraph/blockquote/code case: image
segments contribute nothing (they are queued separately), link segments the
placeholder `[LINK: url]`, text segments their text. -/
def paragraphLineText (segs : List Segment) : String :=
  segs.foldl
    (fun acc s =>
      match s.kind with
      | SegKind.image => acc
      | SegKind.link => acc ++ "[LINK: " ++ s.url ++ "]"
      | SegKind.text => acc ++ s.text)
    ""

/-- One segment's contribution to the list case's `listText`
(`seg.text || (seg.type === 'image' ? '[IMAGE]' : seg.type === 'link' ?
`[url]` : '')`). -/
def listSegText (s : Segment) : String :=
  if s.kind = SegKind.text ∧ s.text ≠ "" then s.text
  else
    match s.kind with
    | SegKind.image => "[IMAGE]"
    | SegKind.link => "[" ++ s.url ++ "]"
    | SegKind.text => ""

/-- Text `listText` of a list block. -/
def listLineText (segs : List Segment) : String :=
  segs.foldl (fun acc s => acc ++ listSegText s) ""

/-- The list-identity key `block.type + (block.ordered ? 'ordered' :
'unordered')` used to decide counter resets. -/
def blockListKey (b : Line) : String :=
  b.type ++ (if b.ordered then "ordered" else "unordered")

/-- Embeds the list-counter logic of the `case 'list'` branch: reset the
counter to 1 when the stored identity differs from this block's, then either
assign and increment the counter (ordered) or leave it (unordered).  Returns
the new counter, the new stored identity and the number assigned to this item
(`none` for a bullet item). -/
def listStateStep (currentListNumber : Nat) (lastListType : Option String) (b : Line) :
    Nat × Option String × Option Nat :=
  let key := blockListKey b
  let reset := lastListType ≠ some key
  let n := if reset then 1 else currentListNumber
  let lastT := if reset then some key else lastListType
  if b.ordered then (n + 1, lastT, some n) else (n, lastT, none)

/-- Numbers the list blocks of a block sequence exactly as the
`generateAdvancedTextPdf` loop does: the `case 'list'` branch runs
`listStateStep`; the `header`, `paragraph`, `blockquote`, `code` and `image`
cases leave the counter state untouched; only the (dead) `default` case
resets it.  Emits the assigned ordinal for each ordered list block and `none`
for every other block. -/
def listNumbersGo : Nat → Option String → List Line → List (Option Nat)
  | _, _, [] => []
  | n, lastT, b :: bs =>
    if b.type = "list" then
      match listStateStep n lastT b with
      | (n1, l1, assigned) => assigned :: listNumbersGo n1 l1 bs
    else if b.type = "header" ∨ b.type = "paragraph" ∨ b.type = "blockquote" ∨
        b.type = "code" ∨ b.type = "image" then
      none :: listNumbersGo n lastT bs
    else
      none :: listNumbersGo 1 none bs

/-- List numbering of a whole export, starting from
`currentListNumber = 1`, `lastListType = null`. -/
def listNumbers (bs : List Line) : List (Option Nat) :=
  listNumbersGo 1 none bs

/-- External layout parameters: the jsPDF page size and the greedy text
wrapper `pdf.splitTextToSize` abstracted to the number of lines a text wraps
to at a given width (always at least one line for the texts that occur). -/
structure DriverConfig where
  pageHeight : ℚ
  pageWidth : ℚ
  wrap : String → ℚ → Nat

/-- Usable content width, `pageWidth - margin * 2` with
`PDF_CONSTANTS.MARGIN = 20`. -/
def maxW (cfg : DriverConfig) : ℚ := cfg.pageWidth - 40

/-- Mutable state of the block loop: the vertical cursor `currentY`, the
number of `pdf.addPage()` calls, and the list counter state. -/
structure DriverState where
  currentY : ℚ
  pages : Nat
  currentListNumber : Nat
  lastListType : Option String
deriving DecidableEq, Repr

/-- Initial state of one export: `currentY = margin`, no added pages,
`currentListNumber = 1`, `lastListType = null`. -/
def initDriverState : DriverState :=
  ⟨20, 0, 1, none⟩

/-- Embeds the page-break check run before each block: `if (currentY >
pageHeight - PDF_CONSTANTS.MARGIN - 20) { pdf.addPage(); currentY = margin; }`. -/
def pageBreakCheck (pageHeight : ℚ) (st : DriverState) : DriverState :=
  if st.currentY > pageHeight - 20 - 20 then
    { st with currentY := 20, pages := st.pages + 1 }
  else st

/-- Vertical advance and list-state update of one block, after the page-break
check, exactly as the `switch (block.type)` computes them with
`DEFAULT_LINE_HEIGHT = 5` and `PARAGRAPH_SPACING = 4`:
header `+14`; paragraph `+2 + 5*lines + 4`; blockquote and code
`+2 + (5*lines + 10) + 4` at width `maxWidth - 16`; list
`+5*lines + 3` at width `maxWidth - 15` on the bulleted text; the `image`
case is unreachable from parsed input and its external image embed is not
modelled; the `default` case resets the list counter. -/
def driverStep (cfg : DriverConfig) (st : DriverState) (b : Line) : DriverState :=
  let st := pageBreakCheck cfg.pageHeight st
  if b.type = "header" then
    { st with currentY := st.currentY + 14 }
  else if b.type = "paragraph" then
    { st with currentY :=
        st.currentY + 2 + 5 * (cfg.wrap (paragraphLineText b.segments) (maxW cfg) : ℚ) + 4 }
  else if b.type = "blockquote" ∨ b.type = "code" then
    { st with currentY :=
        st.currentY + 2 + (5 * (cfg.wrap (paragraphLineText b.segments) (maxW cfg - 16) : ℚ) + 10) + 4 }
  else if b.type = "list" then
    match listStateStep st.currentListNumber st.lastListType b with
    | (n1, l1, assigned) =>
      let bullet := match assigned with
        | some k => toString k ++ ". "
        | none => "• "
      { st with
          currentY := st.currentY +
            5 * (cfg.wrap (bullet ++ listLineText b.segments) (maxW cfg - 15) : ℚ) + 3,
          currentListNumber := n1,
          lastListType := l1 }
  else if b.type = "image" then st
  else
    { st with currentListNumber := 1, lastListType := none }

/-- Runs the block loop over a whole export. -/
def driverRun (cfg : DriverConfig) (st : DriverState) (bs : List Line) : DriverState :=
  bs.foldl (driverStep cfg) st

/-- The state in force when each block starts rendering, i.e. just after its
page-break check. -/
def driverStatesGo (cfg : DriverConfig) : DriverState → List Line → List DriverState
  | _, [] => []
  | st, b :: bs => pageBreakCheck cfg.pageHeight st :: driverStatesGo cfg (driverStep cfg st b) bs

/-! ## Export drivers and UI events (`generateAdvancedPdf`, `htmlToPdf`) -/

/-- User-visible UI effects of an export attempt. -/
inductive UiEvent
  | loaderShown (msg : String)
  | alertShown (title : String) (msg : String)
  | loaderHidden
deriving DecidableEq, Repr

/-- Whether an event is a user-visible alert. -/
def isAlert : UiEvent → Bool
  | UiEvent.alertShown _ _ => true
  | _ => false

/-- Number of alerts in a UI trace. -/
def alertCount (tr : List UiEvent) : Nat :=
  (tr.filter isAlert).length

/-- Embeds `generateAdvancedTextPdf`'s outer `try/catch`: the body's outcome
is the abstract `inner` result (jsPDF work and download); the `catch` block
only logs and rethrows, emitting no UI event. -/
def generateAdvancedTextPdfRun (inner : Except String Unit) :
    List UiEvent × Except String Unit :=
  match inner with
  | Except.ok _ => ([], Except.ok ())
  | Except.error e => ([], Except.error e)

/-- Embeds `generateAdvancedPdf`: `showLoader`, then the advanced renderer,
one alert in the `catch` branch, `hideLoader` in `finally`. -/
def generateAdvancedPdfTrace (inner : Except String Unit) : List UiEvent :=
  match generateAdvancedTextPdfRun inner with
  | (evs, r) =>
    [UiEvent.loaderShown "Generating Advanced Text PDF..."] ++ evs ++
    (match r with
     | Except.ok _ => []
     | Except.error _ => [UiEvent.alertShown "Error" "Failed to generate advanced text PDF."]) ++
    [UiEvent.loaderHidden]

/-- Embeds `generateTextPDF`: its own `catch` shows one alert and swallows
the error, so the function itself never rejects. -/
def generateTextPDFRun (inner : Except String Unit) :
    List UiEvent × Except String Unit :=
  match inner with
  | Except.ok _ => ([], Except.ok ())
  | Except.error _ =>
    ([UiEvent.alertShown "Error"
        "Failed to generate text-based PDF. Try the Browser Print or Image PDF options."],
     Except.ok ())

/-- Embeds `htmlToPdf` (the basic export): `showLoader`, `generateTextPDF`,
an alert in the (unreachable) outer `catch`, `hideLoader` in `finally`. -/
def htmlToPdfTrace (inner : Except String Unit) : List UiEvent :=
  match generateTextPDFRun inner with
  | (evs, r) =>
    [UiEvent.loaderShown "Creating PDF..."] ++ evs ++
    (match r with
     | Except.ok _ => []
     | Except.error _ => [UiEvent.alertShown "Error" "Failed to create PDF from text."]) ++
    [UiEvent.loaderHidden]

/-! ## Concrete inputs used by the theorems below -/

/-- Block types the parser can emit: `determineLineType` only ever assigns
`header`, `blockquote`, `code` or `list`, and every accumulator starts as
`paragraph`. -/
def parserBlockTypes : List String :=
  ["paragraph", "header", "blockquote", "code", "list"]

/-- The empty paragraph block that the parser produces for an empty line: a
paragraph whose only segment is empty text. -/
def emptyParaLine : Line :=
  { segments := [{ text := "" }] }

/-- Delta of two ordered list items, a plain paragraph, and a third ordered
list item (each line's block attributes ride on its newline operation). -/
def demoListDelta : List Op :=
  [Op.insertText "a" {}, Op.insertText "\n" { list := some "ordered" },
   Op.insertText "b" {}, Op.insertText "\n" { list := some "ordered" },
   Op.insertText "c" {}, Op.insertText "\n" {},
   Op.insertText "d" {}, Op.insertText "\n" { list := some "ordered" }]

/-- Attribute map carrying all four block markers at once (header level 2
together with blockquote, code-block and ordered-list markers). -/
def attrsAllMarkers : Attrs :=
  { header := some 2, blockquote := true, codeBlock := true, list := some "ordered" }

/-- Layout parameters of an A4 page where every text wraps to a single
physical line. -/
def cfgOne : DriverConfig :=
  ⟨297, 210, fun _ _ => 1⟩

/-- Layout parameters of an A4 page where the paragraph below wraps to 51
physical lines (a long paragraph at the 170mm content width). -/
def cfg51 : DriverConfig :=
  ⟨297, 210, fun _ _ => 51⟩

/-- A single long paragraph block. -/
def paraLong : Line :=
  { type := "paragraph", segments := [{ text := "a very long paragraph" }] }

/-- Delta inserting an image embed followed by the line-terminating newline. -/
def imageDelta : List Op :=
  [Op.insertEmbed { image := some "pic.png" } {}, Op.insertText "\n" {}]

/-- The block that `imageDelta` parses to: a paragraph block holding an
image-kind segment and the empty terminating text segment. -/
def imageParaLine : Line :=
  { segments := [{ kind := SegKind.image, src := "pic.png" }, { text := "" }] }

/-! ## Lemmas about the delta parser -/

theorem splitNl_ne_nil (cs : List Char) : splitNl cs ≠ [] := by
  cases cs with
  | nil => simp [splitNl]
  | cons c cs =>
    simp only [splitNl]
    split <;> simp

theorem splitNl_length (cs : List Char) : (splitNl cs).length = countNl cs + 1 := by
  induction cs with
  | nil => rfl
  | cons c cs ih =>
    have hne : (splitNl cs).length ≠ 0 := by
      simpa using splitNl_ne_nil cs
    simp only [splitNl, countNl]
    by_cases h : c = '\n'
    · simp [h, ih]
      omega
    · rw [if_neg h, if_neg h]
      simp only [List.length_cons, List.length_tail]
      omega

theorem countNl_eq_zero {cs : List Char} (h : '\n' ∉ cs) : countNl cs = 0 := by
  induction cs with
  | nil => rfl
  | cons c cs ih =>
    simp only [List.mem_cons, not_or] at h
    have hc : ¬ c = '\n' := fun he => h.1 he.symm
    simp [countNl, hc, ih h.2]

theorem countNl_pos {cs : List Char} (h : '\n' ∈ cs) : 0 < countNl cs := by
  induction cs with
  | nil => cases h
  | cons c cs ih =>
    rcases List.mem_cons.mp h with h1 | h1
    · simp [countNl, h1.symm]
    · have := ih h1
      simp only [countNl]
      omega

theorem processPartsLoop_content_length (attrs : Attrs) :
    ∀ (rest : List String) (cur : Line) (content : List Line),
      ((processPartsLoop attrs cur content rest).2).length = content.length + rest.length
  | [], _, _ => by simp [processPartsLoop]
  | [_], _, content => by simp [processPartsLoop]
  | _ :: q :: rest, cur, content => by
    simp only [processPartsLoop]
    rw [processPartsLoop_content_length attrs (q :: rest)]
    simp
    omega

theorem processPartsLoop_fst_seglen (attrs : Attrs) :
    ∀ (rest : List String) (cur : Line) (content : List Line), rest ≠ [] →
      ((processPartsLoop attrs cur content rest).1).segments.length = 1
  | [], _, _, h => absurd rfl h
  | [_], _, _, _ => by simp [processPartsLoop, pushTextSeg]
  | _ :: q :: rest, _, _, _ => by
    simp only [processPartsLoop]
    exact processPartsLoop_fst_seglen attrs (q :: rest) _ _ (by simp)

theorem jsSplitString_length (t : String) :
    (jsSplitString t).length = countNl t.toList + 1 := by
  simp [jsSplitString, splitNl_length]

theorem processTextInsert_content_length (t : String) (a : Attrs) (cur : Line)
    (content : List Line) :
    ((processTextInsert t a cur content).2).length = content.length + countNl t.toList := by
  unfold processTextInsert
  by_cases h : '\n' ∈ t.toList
  · rw [if_pos h]
    have hlen := jsSplitString_length t
    cases hsp : jsSplitString t with
    | nil => rw [hsp] at hlen; simp at hlen
    | cons p0 rest =>
      rw [hsp] at hlen
      simp only [List.length_cons] at hlen
      simp only []
      rw [processPartsLoop_content_length]
      omega
  · rw [if_neg h]
    simp [show countNl t.data = 0 from countNl_eq_zero h]

theorem processTextInsert_fst_pos (t : String) (a : Attrs) (cur : Line)
    (content : List Line) :
    0 < ((processTextInsert t a cur content).1).segments.length := by
  unfold processTextInsert
  by_cases h : '\n' ∈ t.toList
  · rw [if_pos h]
    have hlen := jsSplitString_length t
    cases hsp : jsSplitString t with
    | nil => rw [hsp] at hlen; simp at hlen
    | cons p0 rest =>
      rw [hsp] at hlen
      simp only [List.length_cons] at hlen
      have hrest : rest ≠ [] := by
        intro he
        subst he
        have hp := countNl_pos h
        simp only [List.length_nil] at hlen
        omega
      simp only []
      rw [processPartsLoop_fst_seglen a rest _ _ hrest]
      omega
  · rw [if_neg h]
    simp [pushTextSeg]

theorem opsNewlines_cons (op : Op) (ops : List Op) :
    opsNewlines (op :: ops) = opNewlines op + opsNewlines ops := by
  simp [opsNewlines]

theorem parseLoop_content_length :
    ∀ (ops : List Op) (cur : Line) (content : List Line),
      ((parseLoop ops cur content).2).length = content.length + opsNewlines ops
  | [], _, _ => by simp [parseLoop, opsNewlines]
  | Op.insertText t a :: ops, cur, content => by
    simp only [parseLoop]
    rw [parseLoop_content_length ops, processTextInsert_content_length,
      opsNewlines_cons]
    simp only [opNewlines]
    omega
  | Op.insertEmbed obj a :: ops, cur, content => by
    simp only [parseLoop]
    rw [parseLoop_content_length ops, opsNewlines_cons]
    simp [opNewlines]

theorem processObjectInsert_seglen (obj : EmbedObj) (a : Attrs) (cur : Line) :
    (processObjectInsert obj a cur).segments.length = cur.segments.length + 1 := by
  unfold processObjectInsert
  split_ifs <;> simp [pushTextSeg]

theorem parseLoop_fst_pos :
    ∀ (ops : List Op) (cur : Line) (content : List Line),
      0 < cur.segments.length ∨ ops ≠ [] →
      0 < ((parseLoop ops cur content).1).segments.length
  | [], cur, _, h => by
    rcases h with h | h
    · exact h
    · exact absurd rfl h
  | Op.insertText t a :: ops, cur, content, _ => by
    simp only [parseLoop]
    exact parseLoop_fst_pos ops _ _ (Or.inl (processTextInsert_fst_pos t a cur content))
  | Op.insertEmbed obj a :: ops, cur, content, _ => by
    simp only [parseLoop]
    refine parseLoop_fst_pos ops _ _ (Or.inl ?_)
    rw [processObjectInsert_seglen]
    omega

theorem determineLineType_type_mem (attrs : Attrs) (cur : Line)
    (h : cur.type ∈ parserBlockTypes) :
    (determineLineType attrs cur).type ∈ parserBlockTypes := by
  unfold determineLineType
  split_ifs <;> simp_all [parserBlockTypes]

theorem pushTextSeg_type (attrs : Attrs) (t : String) (cur : Line) :
    (pushTextSeg attrs t cur).type = cur.type := rfl

theorem processObjectInsert_type (obj : EmbedObj) (attrs : Attrs) (cur : Line) :
    (processObjectInsert obj attrs cur).type = cur.type := by
  unfold processObjectInsert
  split_ifs <;> rfl

theorem processPartsLoop_types (attrs : Attrs) :
    ∀ (rest : List String) (cur : Line) (content : List Line),
      cur.type ∈ parserBlockTypes → (∀ b ∈ content, b.type ∈ parserBlockTypes) →
      ((processPartsLoop attrs cur content rest).1.type ∈ parserBlockTypes ∧
        ∀ b ∈ (processPartsLoop attrs cur content rest).2, b.type ∈ parserBlockTypes)
  | [], cur, content, hc, hl => ⟨hc, hl⟩
  | [last], cur, content, hc, hl => by
    refine ⟨by simp [processPartsLoop, pushTextSeg, parserBlockTypes], ?_⟩
    intro b hb
    simp only [processPartsLoop, List.mem_append, List.mem_singleton] at hb
    rcases hb with hb | hb
    · exact hl b hb
    · subst hb
      exact determineLineType_type_mem attrs cur hc
  | p :: q :: rest, cur, content, hc, hl => by
    simp only [processPartsLoop]
    refine processPartsLoop_types attrs (q :: rest) _ _ ?_ ?_
    · simp [pushTextSeg, parserBlockTypes]
    · intro b hb
      simp only [List.mem_append, List.mem_singleton] at hb
      rcases hb with hb | hb
      · exact hl b hb
      · subst hb
        exact determineLineType_type_mem attrs cur hc

theorem processTextInsert_types (t : String) (a : Attrs) (cur : Line)
    (content : List Line) (hc : cur.type ∈ parserBlockTypes)
    (hl : ∀ b ∈ content, b.type ∈ parserBlockTypes) :
    ((processTextInsert t a cur content).1.type ∈ parserBlockTypes ∧
      ∀ b ∈ (processTextInsert t a cur content).2, b.type ∈ parserBlockTypes) := by
  unfold processTextInsert
  by_cases h : '\n' ∈ t.toList
  · rw [if_pos h]
    cases hsp : jsSplitString t with
    | nil => exact ⟨hc, hl⟩
    | cons p0 rest =>
      simp only []
      refine processPartsLoop_types a rest _ _ ?_ hl
      simpa [pushTextSeg] using hc
  · rw [if_neg h]
    exact ⟨by simpa [pushTextSeg] using hc, hl⟩

theorem parseLoop_types :
    ∀ (ops : List Op) (cur : Line) (content : List Line),
      cur.type ∈ parserBlockTypes → (∀ b ∈ content, b.type ∈ parserBlockTypes) →
      ((parseLoop ops cur content).1.type ∈ parserBlockTypes ∧
        ∀ b ∈ (parseLoop ops cur content).2, b.type ∈ parserBlockTypes)
  | [], cur, content, hc, hl => ⟨hc, hl⟩
  | Op.insertText t a :: ops, cur, content, hc, hl => by
    simp only [parseLoop]
    have h1 := processTextInsert_types t a cur content hc hl
    exact parseLoop_types ops _ _ h1.1 h1.2
  | Op.insertEmbed obj a :: ops, cur, content, hc, hl => by
    simp only [parseLoop]
    refine parseLoop_types ops _ _ ?_ hl
    rw [processObjectInsert_type]
    exact hc

/-! ## Claim theorems -/

/-- Claim C1, counterexample: the delta `[{insert: "abc\n"}]` has exactly one
newline character in its inserted text and no newline-free trailing text, yet
`parseQuillDelta` returns 2 blocks, not 1 — the final accumulator always holds
the (empty) trailing segment pushed by `processTextInsert`, so it always
passes the `segments.length > 0` check and is appended as an extra block. -/
theorem C1_count_counterexample :
    (parseQuillDelta [Op.insertText "abc\n" {}]).length = 2 ∧
    opsNewlines [Op.insertText "abc\n" {}] = 1 ∧
    (parseQuillDelta [Op.insertText "abc\n" {}]).length ≠
      opsNewlines [Op.insertText "abc\n" {}] := by
  refine ⟨by decide, by decide, by decide⟩

/-- Claim C1, amended: for every non-empty delta — text inserts and embeds
alike, trailing newline or not — `parseQuillDelta` returns one block more
than the number of newline characters in the inserted text (the extra block
being the trailing accumulator, which after any operation holds at least one
segment and is therefore always appended), and an empty line (two
consecutive newlines) still yields an empty paragraph block that is
preserved in the output, as block 1 of parsing `"a\n\nb\n"` shows. -/
theorem C1_count_amended (ops : List Op) (h1 : ops ≠ []) :
    (parseQuillDelta ops).length = opsNewlines ops + 1 ∧
    (parseQuillDelta [Op.insertText "a\n\nb\n" {}]).getD 1 {} = emptyParaLine := by
  refine ⟨?_, by decide⟩
  unfold parseQuillDelta
  rw [if_pos (parseLoop_fst_pos ops {} [] (Or.inr h1))]
  simp [parseLoop_content_length]

/-- Witness for the amended claim C1 at a delta mixing an image embed with a
newline-terminated text insert. -/
theorem C1_count_amended_witness :
    ([Op.insertEmbed { image := some "img.png" } {}, Op.insertText "x\n" {}] ≠ []) ∧
    ((parseQuillDelta [Op.insertEmbed { image := some "img.png" } {}, Op.insertText "x\n" {}]).length =
        opsNewlines [Op.insertEmbed { image := some "img.png" } {}, Op.insertText "x\n" {}] + 1 ∧
      (parseQuillDelta [Op.insertText "a\n\nb\n" {}]).getD 1 {} = emptyParaLine) :=
  ⟨by decide,
    C1_count_amended [Op.insertEmbed { image := some "img.png" } {}, Op.insertText "x\n" {}]
      (by decide)⟩

/-- Claim C2, failing input: the parsed block sequence
`[list(ordered) "a", list(ordered) "b", paragraph "c", list(ordered) "d"]`
is numbered `1, 2, 3` by the layout loop, not `1, 2, (reset), 1`: the
`paragraph` case of the `switch` never reaches the `default` branch that
resets the counter, so a non-list block does not interrupt the numbering
(the trailing fifth block is the parser's extra empty paragraph). -/
theorem C2_list_counter_eval :
    listNumbers (parseQuillDelta demoListDelta) =
      [some 1, some 2, none, some 3, none] := by
  decide

/-- Claim C3, evaluation at the failing input: the refactored variant's guard
`bgColor !== PDF_CONSTANTS.DEFAULT_COLORS.BLACK` compares object references,
and `parseColor('#000000')` returns a fresh object, so a `#000000` background
IS painted (as black) instead of being suppressed; any other hex value is
painted with its parsed triple, and a non-hex value yields no background.
The sibling `html-to-pdf.ts` variant compares the string against `'#000000'`
and implements the claimed suppression. -/
theorem C3_background_black_eval :
    resolveBackground (some "#000000") = some blackV ∧
    resolveBackground (some "#f0f0f0") = some ⟨some 240, some 240, some 240⟩ ∧
    resolveBackground (some "rgb(0,0,0)") = none ∧
    resolveBackgroundStrCmp (some "#000000") = none ∧
    resolveBackgroundStrCmp (some "#f0f0f0") = some ⟨some 240, some 240, some 240⟩ := by
  refine ⟨by decide, by decide, by decide, by decide, by decide⟩

/-- Claim C4, counterexample: one A4 export consisting of a single paragraph
that wraps to 51 physical lines ends with the vertical cursor at 281mm, past
`pageHeight - margin = 277`, and no page break was ever triggered
(`pdf.addPage` was called zero times): the look-ahead check only runs before
a block, so the cursor can pass the bottom margin while a block is rendered,
and for the last block no later check ever fires. -/
theorem C4_cursor_overflow_counterexample :
    driverRun cfg51 initDriverState [paraLong] =
      { currentY := 281, pages := 0, currentListNumber := 1, lastListType := none } ∧
    (281 : ℚ) > cfg51.pageHeight - 20 := by
  constructor
  · simp [driverRun, driverStep, pageBreakCheck, initDriverState, cfg51, maxW, paraLong]
    norm_num
  · norm_num [cfg51]

/-- Claim C4, amended: the page-break check runs before every block and, when
the cursor exceeds `pageHeight - margin - lookaheadAllowance` (margin 20,
look-ahead 20), performs `addPage` and resets the cursor to the top margin;
consequently at the START of every block's rendering the cursor is at most
`pageHeight - margin - lookaheadAllowance`.  After a block is rendered,
however, the cursor may exceed `pageHeight - margin` with the break only
happening at the next block's check, or never for the last block
(see the counterexample). -/
theorem C4_page_break_amended (cfg : DriverConfig) (h : 60 ≤ cfg.pageHeight)
    (st0 : DriverState) (blocks : List Line) :
    (∀ s ∈ driverStatesGo cfg st0 blocks, s.currentY ≤ cfg.pageHeight - 20 - 20) ∧
    (∀ st : DriverState, cfg.pageHeight - 20 - 20 < st.currentY →
      pageBreakCheck cfg.pageHeight st =
        { st with currentY := 20, pages := st.pages + 1 }) := by
  constructor
  · induction blocks generalizing st0 with
    | nil => intro s hs; cases hs
    | cons b bs ih =>
      intro s hs
      simp only [driverStatesGo, List.mem_cons] at hs
      rcases hs with rfl | hs
      · unfold pageBreakCheck
        split_ifs with hY
        · simp only
          linarith
        · simpa using le_of_not_lt hY
      · exact ih _ s hs
  · intro st hst
    unfold pageBreakCheck
    rw [if_pos hst]

/-- Witness for the amended claim C4: an A4 page (height 297mm) with a single
header block. -/
theorem C4_page_break_amended_witness :
    60 ≤ cfgOne.pageHeight ∧
    ((∀ s ∈ driverStatesGo cfgOne initDriverState [{ type := "header" }],
        s.currentY ≤ cfgOne.pageHeight - 20 - 20) ∧
      (∀ st : DriverState, cfgOne.pageHeight - 20 - 20 < st.currentY →
        pageBreakCheck cfgOne.pageHeight st =
          { st with currentY := 20, pages := st.pages + 1 })) :=
  ⟨by norm_num [cfgOne],
    C4_page_break_amended cfgOne (by norm_num [cfgOne]) initDriverState [{ type := "header" }]⟩

/-- Claim C5, counterexample: the color string `"#zzzzzz"` is not a valid
`#RRGGBB` hex representation, yet `parseColor` does not resolve it to black —
the guard only checks the `#` prefix, and `parseInt('zz', 16)` yields `NaN`,
so the resolved color has `NaN` components. -/
theorem C5_color_nan_counterexample :
    colorRefVal (parseColor (some "#zzzzzz")) = ⟨none, none, none⟩ ∧
    colorRefVal (parseColor (some "#zzzzzz")) ≠ blackV := by
  refine ⟨by decide, by decide⟩

/-- Claim C5, amended: a color attribute that is absent, empty, or does not
start with `#` (e.g. functional `rgb(...)` notation) resolves to black
`{r:0,g:0,b:0}`, and `"#336699"` resolves to `{r:51,g:102,b:153}`; a
`#`-prefixed string whose digit pairs are not hexadecimal, however, yields
`NaN` components rather than black (see the counterexample). -/
theorem C5_color_fallback_amended (c : Option String) (h : nonHashColor c = true) :
    colorRefVal (parseColor c) = blackV ∧
    colorRefVal (parseColor (some "#336699")) = ⟨some 51, some 102, some 153⟩ := by
  refine ⟨?_, by decide⟩
  match c with
  | none => rfl
  | some s =>
    have hcond : s = "" ∨ ¬ jsStartsWithHash s = true := by
      simp only [nonHashColor, Bool.or_eq_true, beq_iff_eq, Bool.not_eq_true'] at h
      rcases h with h | h
      · exact Or.inl h
      · exact Or.inr (by simp [h])
    simp only [parseColor]
    rw [if_pos hcond]
    rfl

/-- Witness for the amended claim C5 at the functional color notation
`rgb(51,102,153)`. -/
theorem C5_color_fallback_witness :
    nonHashColor (some "rgb(51,102,153)") = true ∧
    (colorRefVal (parseColor (some "rgb(51,102,153)")) = blackV ∧
      colorRefVal (parseColor (some "#336699")) = ⟨some 51, some 102, some 153⟩) :=
  ⟨by decide, C5_color_fallback_amended (some "rgb(51,102,153)") (by decide)⟩

/-- Claim C6: for a newline-terminating operation's attribute map, the
completed block's type follows the fixed priority order
header > blockquote > code > list > paragraph (a header attribute wins and
stores its level no matter which other markers are present; with no marker
the accumulator's paragraph type is kept), the `ordered` flag records whether
the list value is `"ordered"`, and the attribute map is stored on the
block. -/
theorem C6_block_type_priority (attrs : Attrs) (cur : Line) (h : cur.type = "paragraph") :
    (determineLineType attrs cur).type = specBlockType attrs ∧
    (determineLineType attrs cur).level =
      (if headerTruthy attrs.header then attrs.header else cur.level) ∧
    (determineLineType attrs cur).ordered =
      (if specBlockType attrs = "list" then attrs.list == some "ordered" else cur.ordered) ∧
    (determineLineType attrs cur).attributes = attrs := by
  unfold determineLineType specBlockType
  split_ifs <;> simp_all

/-- Witness for claim C6: an attribute map carrying all four block markers at
once yields a header block of level 2. -/
theorem C6_block_type_priority_witness :
    ({} : Line).type = "paragraph" ∧
    ((determineLineType attrsAllMarkers {}).type = specBlockType attrsAllMarkers ∧
      (determineLineType attrsAllMarkers {}).level =
        (if headerTruthy attrsAllMarkers.header then attrsAllMarkers.header
         else ({} : Line).level) ∧
      (determineLineType attrsAllMarkers {}).ordered =
        (if specBlockType attrsAllMarkers = "list" then attrsAllMarkers.list == some "ordered"
         else ({} : Line).ordered) ∧
      (determineLineType attrsAllMarkers {}).attributes = attrsAllMarkers) :=
  ⟨rfl, C6_block_type_priority attrsAllMarkers {} rfl⟩

/-- Claim C7: the resolved font size equals the specification's rule — base
10pt for code blocks, 11pt for blockquotes, 12pt otherwise; `size=small`
gives `max(8, base-2)`, `size=large` gives `base+4`, `size=huge` gives
`base+8`, and any other (or absent) size gives the base. -/
theorem C7_font_size_resolution (blockType : String) (attrs : Attrs) :
    getFontSize blockType attrs = specFontSize blockType attrs.size := rfl

/-- Claim C8: `script=super` scales the font size by 0.7 and shifts the drawn
baseline up (negative y offset) by 0.4 times the unscaled size, `script=sub`
scales by 0.7 and shifts down by 0.25 times the unscaled size, and any other
script value leaves size and baseline unchanged. -/
theorem C8_script_formatting (fontSize : ℚ) (script : Option String) :
    calculateScriptFormatting fontSize script =
      (specScriptScale script * fontSize, specScriptShift script fontSize) := by
  unfold calculateScriptFormatting specScriptScale specScriptShift
    superscriptScale superscriptOffset subscriptScale subscriptOffset
  split_ifs <;> simp_all [Prod.ext_iff, mul_comm]

/-- Claim C9: for both export drivers, a failure of the underlying PDF work
surfaces exactly one user-visible alert (and a success none), and the loading
indicator is hidden as the last UI action in every termination. -/
theorem C9_alert_and_loader (inner : Except String Unit) :
    alertCount (generateAdvancedPdfTrace inner) =
      (match inner with | Except.ok _ => 0 | Except.error _ => 1) ∧
    (generateAdvancedPdfTrace inner).getLast? = some UiEvent.loaderHidden ∧
    alertCount (htmlToPdfTrace inner) =
      (match inner with | Except.ok _ => 0 | Except.error _ => 1) ∧
    (htmlToPdfTrace inner).getLast? = some UiEvent.loaderHidden := by
  cases inner <;> exact ⟨rfl, rfl, rfl, rfl⟩

/-- Claim C10: every block produced by `parseQuillDelta` has one of the five
parser block types and in particular never the type `image`, so the layout
loop's standalone-image case is unreachable from parsed input; image embeds
only ever appear as image-kind segments inside such blocks. -/
theorem C10_no_image_block (ops : List Op) (b : Line) (h : b ∈ parseQuillDelta ops) :
    b.type ∈ parserBlockTypes ∧ b.type ≠ "image" := by
  have hinv := parseLoop_types ops {} []
    (by simp [parserBlockTypes]) (by intro b hb; cases hb)
  have hmem : b.type ∈ parserBlockTypes := by
    unfold parseQuillDelta at h
    split at h
    · rcases List.mem_append.mp h with h1 | h1
      · exact hinv.2 b h1
      · simp only [List.mem_singleton] at h1
        subst h1
        exact hinv.1
    · exact hinv.2 b h
  refine ⟨hmem, ?_⟩
  intro he
  rw [he] at hmem
  simp [parserBlockTypes] at hmem

/-- Witness for claim C10: the first block of parsing an image embed followed
by a newline is a paragraph block carrying the image segment. -/
theorem C10_no_image_block_witness :
    imageParaLine ∈ parseQuillDelta imageDelta ∧
    (imageParaLine.type ∈ parserBlockTypes ∧ imageParaLine.type ≠ "image") :=
  ⟨by decide, C10_no_image_block imageDelta imageParaLine (by decide)⟩

end Pdf
